import Mathlib

/-!
Verification of the core pipeline of `src/app.py` (programmatic-SSP dashboard):
validation (`validate_data`), filtering, per-source aggregation, global metrics
and the alert evaluator (`show_alerts`).

Modelling conventions:
* A pandas `DataFrame` as handled by `validate_data` is a `RawTable`: a list of
  named columns, each carrying a dtype and a list of cells.  `is_numeric_dtype`
  is a check of the column's dtype.
* Calendar dates are coded as integers (`y*10000 + m*100 + d`), which preserves
  the calendar order used by the date-range filter.  `pd.to_datetime` is
  modelled on the application's canonical `YYYY-MM-DD` format (the format the
  app itself emits and its error message demands); already-parsed date cells
  parse to themselves and numeric cells parse as epoch-style offsets.
* After validation the pipeline works on typed rows (`Row`), one per record,
  with exact rational arithmetic in place of float64.  `.round(2)` is modelled
  as rounding half-up on the hundredths grid; no statement below depends on a
  tie, so the tie-breaking direction (half-even for float64) is immaterial.
* `df.groupby('Fuente')` sorts the group keys; string order is modelled
  lexicographically on code points (`strLe`), matching Python string order.
-/

set_option autoImplicit false

namespace Dashboard

/-! ### Raw tables (the pandas DataFrame surface seen by `validate_data`) -/

inductive Dtype
  | numeric
  | object
  | datetime
deriving DecidableEq, Repr

inductive Cell
  | num (q : ℚ)
  | str (s : String)
  | date (d : ℤ)
deriving DecidableEq, Repr

structure Column where
  name : String
  dtype : Dtype
  cells : List Cell
deriving DecidableEq, Repr

structure RawTable where
  cols : List Column
deriving DecidableEq, Repr

def hasCol (df : RawTable) (n : String) : Bool :=
  df.cols.any (fun c => c.name == n)

def getCol (df : RawTable) (n : String) : Option Column :=
  df.cols.find? (fun c => c.name == n)

/-- Replace the column named `n` in place, as the assignment `df[n] = newc` does. -/
def setCol (df : RawTable) (n : String) (newc : Column) : RawTable :=
  ⟨df.cols.map (fun c => if c.name == n then newc else c)⟩

/-- Model of `pd.api.types.is_numeric_dtype(df[n])`. -/
def isNumericCol (df : RawTable) (n : String) : Bool :=
  match getCol df n with
  | some c => c.dtype == Dtype.numeric
  | none => false

/-! ### Date parsing (model of `pd.to_datetime` on this app's data) -/

def digitVal (c : Char) : Option ℕ :=
  if c.isDigit then some (c.toNat - 48) else none

/-- Parse a `YYYY-MM-DD` string to an integer date code `y*10000 + m*100 + d`. -/
def parseYMD (s : String) : Option ℤ :=
  match s.toList with
  | [y1, y2, y3, y4, '-', m1, m2, '-', d1, d2] =>
      match digitVal y1, digitVal y2, digitVal y3, digitVal y4,
            digitVal m1, digitVal m2, digitVal d1, digitVal d2 with
      | some a, some b, some c, some d, some e, some f, some g, some h =>
          let y := 1000 * a + 100 * b + 10 * c + d
          let mo := 10 * e + f
          let da := 10 * g + h
          if 1 ≤ mo ∧ mo ≤ 12 ∧ 1 ≤ da ∧ da ≤ 31 then
            some ((y : ℤ) * 10000 + (mo : ℤ) * 100 + (da : ℤ))
          else none
      | _, _, _, _, _, _, _, _ => none
  | _ => none

def parseCellDate : Cell → Option ℤ
  | Cell.date d => some d
  | Cell.str s => parseYMD s
  | Cell.num q => some ⌊q⌋

/-- Bulk parse of a date column: any unparseable cell fails the whole column. -/
def parseDates : List Cell → Option (List ℤ)
  | [] => some []
  | c :: cs =>
      match parseCellDate c, parseDates cs with
      | some d, some ds => some (d :: ds)
      | _, _ => none

/-- The attempted `pd.to_datetime(df['Fecha'])`. -/
def parsedDates (df : RawTable) : Option (List ℤ) :=
  match getCol df "Fecha" with
  | some c => parseDates c.cells
  | none => none

/-! ### `validate_data` (src/app.py lines 106-124)

The Python function takes the DataFrame by reference and assigns
`df['Fecha'] = pd.to_datetime(df['Fecha'])` before the numeric checks, so the
embedding passes the table state explicitly and returns the post-call table
alongside the `(ok, message)` verdict. -/

def required_columns : List String :=
  ["Fecha", "Fuente", "Revenue", "Impresiones", "Page_RPM", "Fill_Rate", "eCPM", "CTR"]

def numeric_columns : List String :=
  ["Revenue", "Impresiones", "Page_RPM", "Fill_Rate", "eCPM", "CTR"]

def validate_data (df : RawTable) : (Bool × String) × RawTable :=
  let missing := required_columns.filter (fun c => !(hasCol df c))
  if missing ≠ [] then
    ((false, "Faltan las siguientes columnas: " ++ String.intercalate ", " missing), df)
  else
    match parsedDates df with
    | none => ((false, "Error en formato de fechas. Use YYYY-MM-DD"), df)
    | some ds =>
        let df2 := setCol df "Fecha" ⟨"Fecha", Dtype.datetime, ds.map Cell.date⟩
        match numeric_columns.find? (fun c => !(isNumericCol df2 c)) with
        | some c => ((false, "La columna " ++ c ++ " debe ser numérica"), df2)
        | none => ((true, "Datos válidos"), df2)

/-! ### Typed rows: the validated dataset the rest of the pipeline consumes -/

structure Row where
  fecha : ℤ
  fuente : String
  revenue : ℚ
  impresiones : ℚ
  page_rpm : ℚ
  fill_rate : ℚ
  ecpm : ℚ
  ctr : ℚ
deriving DecidableEq, Repr

/-! ### Filtering (src/app.py lines 215-222) -/

/-- The filter block: with exactly two bounds, keep rows with
`date_range[0] <= Fecha <= date_range[1]` and `Fuente ∈ selected_sources`;
otherwise fall back to the source filter alone. -/
def applyFilters (df : List Row) (dateRange : List ℤ) (sources : List String) : List Row :=
  match dateRange with
  | [d1, d2] =>
      df.filter (fun r => decide (d1 ≤ r.fecha ∧ r.fecha ≤ d2 ∧ r.fuente ∈ sources))
  | _ => df.filter (fun r => decide (r.fuente ∈ sources))

/-- Minimum of the date column (src/app.py line 201); 0 on an empty frame. -/
def minFecha (df : List Row) : ℤ :=
  match df with
  | [] => 0
  | r :: rs => (rs.map Row.fecha).foldl min r.fecha

/-- Maximum of the date column (src/app.py line 202); 0 on an empty frame. -/
def maxFecha (df : List Row) : ℤ :=
  match df with
  | [] => 0
  | r :: rs => (rs.map Row.fecha).foldl max r.fecha

/-! ### Grouping and aggregation -/

/-- Lexicographic (code-point) order on strings, the order in which
`df.groupby('Fuente')` lists its group keys. -/
def lexLeChars : List Char → List Char → Bool
  | [], _ => true
  | _ :: _, [] => false
  | a :: as, b :: bs =>
      if a.val < b.val then true
      else if b.val < a.val then false
      else lexLeChars as bs

def strLe (a b : String) : Bool := lexLeChars a.toList b.toList

/-- The group keys of `df.groupby('Fuente')`: the distinct sources, sorted. -/
def uniqueSources (df : List Row) : List String :=
  List.insertionSort (fun a b => strLe a b = true) (df.map Row.fuente).dedup

/-- The rows of the group for source `s`. -/
def groupRows (df : List Row) (s : String) : List Row :=
  df.filter (fun r => r.fuente == s)

def sumBy (f : Row → ℚ) (rows : List Row) : ℚ := (rows.map f).sum

/-- Pandas `mean`: full-precision sum divided by the row count. -/
def meanBy (f : Row → ℚ) (rows : List Row) : ℚ := sumBy f rows / (rows.length : ℚ)

/-- Pandas rounding to 2 decimals: round to the hundredths grid (see the header note on ties). -/
def round2 (q : ℚ) : ℚ := (round (q * 100) : ℤ) / 100

/-! ### Global metrics (src/app.py lines 237-240) -/

def total_revenue (df : List Row) : ℚ := sumBy Row.revenue df

def total_impressions (df : List Row) : ℚ := sumBy Row.impresiones df

/-- Computed as in src/app.py line 239: the quotient times 1000 when
`total_impressions` is positive, else 0.  This is the global
`page_rpm_overall`. -/
def avg_page_rpm (df : List Row) : ℚ :=
  if 0 < total_impressions df then total_revenue df / total_impressions df * 1000 else 0

def avg_fill_rate (df : List Row) : ℚ := meanBy Row.fill_rate df

/-! ### Per-source aggregations -/

/-- One row of the `source_metrics` frame built inside `show_alerts`
(`Fill_Rate: mean, Revenue: sum, eCPM: mean`, then `.round(2)` on the frame). -/
structure SourceAgg where
  fill_rate_mean : ℚ
  revenue_sum : ℚ
  ecpm_mean : ℚ
deriving DecidableEq, Repr

def sourceMetrics (df : List Row) : List (String × SourceAgg) :=
  (uniqueSources df).map (fun s =>
    (s, { fill_rate_mean := round2 (meanBy Row.fill_rate (groupRows df s))
          revenue_sum := round2 (sumBy Row.revenue (groupRows df s))
          ecpm_mean := round2 (meanBy Row.ecpm (groupRows df s)) }))

/-- One row of `detailed_metrics` (src/app.py lines 355-362). -/
structure DetailedAgg where
  revenue_sum : ℚ
  revenue_mean : ℚ
  impresiones_sum : ℚ
  page_rpm_mean : ℚ
  fill_rate_mean : ℚ
  ecpm_mean : ℚ
  ctr_mean : ℚ
deriving DecidableEq, Repr

def detailed_metrics (df : List Row) : List (String × DetailedAgg) :=
  (uniqueSources df).map (fun s =>
    (s, { revenue_sum := round2 (sumBy Row.revenue (groupRows df s))
          revenue_mean := round2 (meanBy Row.revenue (groupRows df s))
          impresiones_sum := round2 (sumBy Row.impresiones (groupRows df s))
          page_rpm_mean := round2 (meanBy Row.page_rpm (groupRows df s))
          fill_rate_mean := round2 (meanBy Row.fill_rate (groupRows df s))
          ecpm_mean := round2 (meanBy Row.ecpm (groupRows df s))
          ctr_mean := round2 (meanBy Row.ctr (groupRows df s)) }))

/-! ### Alerts (src/app.py lines 127-150) -/

inductive Severity
  | danger
  | warning
deriving DecidableEq, Repr

/-- The Python code appends `(alert_type, message)` pairs; the `source` field
records the loop variable the message is interpolated from, so that "an alert
naming source s" is expressible directly. -/
structure Alert where
  severity : Severity
  source : String
  message : String
deriving DecidableEq, Repr

/-- Fixed-point decimal rendering of a rational, as in Python .1f formatting. -/
def fmtFix (nd : ℕ) (q : ℚ) : String :=
  let scaled : ℤ := round (q * ((10 : ℚ) ^ nd))
  let a := scaled.natAbs
  let ip := a / 10 ^ nd
  let fp := a % 10 ^ nd
  let sign := if scaled < 0 then "-" else ""
  if nd = 0 then sign ++ toString ip
  else
    let fs := toString fp
    sign ++ toString ip ++ "." ++ String.mk (List.replicate (nd - fs.length) '0') ++ fs

def dangerMsg (s : String) (fill : ℚ) : String :=
  "⚠️ " ++ s ++ ": Fill Rate bajo (" ++ fmtFix 1 fill ++ "%)"

def warnMsg (s : String) (e : ℚ) : String :=
  "⚡ " ++ s ++ ": eCPM bajo ($" ++ fmtFix 2 e ++ ")"

def dangerAlert (s : String) (fill : ℚ) : Alert :=
  { severity := Severity.danger, source := s, message := dangerMsg s fill }

def warnAlert (s : String) (e : ℚ) : Alert :=
  { severity := Severity.warning, source := s, message := warnMsg s e }

/-- The loop body of `show_alerts` for one `(source, metrics)` pair: the danger
rule then the warning rule, independently. -/
def perSourceAlerts (p : String × SourceAgg) : List Alert :=
  (if p.2.fill_rate_mean < 80 then [dangerAlert p.1 p.2.fill_rate_mean] else []) ++
    (if p.2.ecpm_mean < 1 then [warnAlert p.1 p.2.ecpm_mean] else [])

/-- The loop over the aggregated per-source metrics, in mapping order. -/
def evalAlerts : List (String × SourceAgg) → List Alert
  | [] => []
  | p :: ps => perSourceAlerts p ++ evalAlerts ps

/-- The alert list `show_alerts` builds and renders (an empty list renders the
explicit all-clear banner instead). -/
def show_alerts (df : List Row) : List Alert :=
  evalAlerts (sourceMetrics df)

def dangerCount (as : List Alert) (s : String) : ℕ :=
  (as.filter (fun a => a.severity == Severity.danger && a.source == s)).length

def warnCount (as : List Alert) (s : String) : ℕ :=
  (as.filter (fun a => a.severity == Severity.warning && a.source == s)).length

/-! ### Concrete inputs used by the witnesses and counterexamples -/

def numCol (n : String) (q : ℚ) : Column := ⟨n, Dtype.numeric, [Cell.num q]⟩

/-- A well-formed one-row upload: string dates, numeric metric columns. -/
def goodRaw : RawTable :=
  ⟨[⟨"Fecha", Dtype.object, [Cell.str "2024-01-05"]⟩,
    ⟨"Fuente", Dtype.object, [Cell.str "A"]⟩,
    numCol "Revenue" 10, numCol "Impresiones" 1000, numCol "Page_RPM" 10,
    numCol "Fill_Rate" 90, numCol "eCPM" 2, numCol "CTR" 1]⟩

/-- Like `goodRaw` but with a zero in the `Impresiones` column. -/
def zeroImpRaw : RawTable :=
  ⟨[⟨"Fecha", Dtype.object, [Cell.str "2024-01-05"]⟩,
    ⟨"Fuente", Dtype.object, [Cell.str "A"]⟩,
    numCol "Revenue" 10, numCol "Impresiones" 0, numCol "Page_RPM" 10,
    numCol "Fill_Rate" 90, numCol "eCPM" 2, numCol "CTR" 1]⟩

/-- All eight columns present, dates parseable, but `Impresiones` and `eCPM`
are both non-numeric (object dtype). -/
def mixedRaw : RawTable :=
  ⟨[⟨"Fecha", Dtype.object, [Cell.str "2024-01-05"]⟩,
    ⟨"Fuente", Dtype.object, [Cell.str "A"]⟩,
    numCol "Revenue" 10,
    ⟨"Impresiones", Dtype.object, [Cell.str "1000"]⟩,
    numCol "Page_RPM" 10, numCol "Fill_Rate" 90,
    ⟨"eCPM", Dtype.object, [Cell.str "x"]⟩,
    numCol "CTR" 1]⟩

/-- A table missing the `Fecha` and `eCPM` columns. -/
def missingRaw : RawTable :=
  ⟨[⟨"Fuente", Dtype.object, [Cell.str "A"]⟩,
    numCol "Revenue" 10, numCol "Impresiones" 1000, numCol "Page_RPM" 10,
    numCol "Fill_Rate" 90, numCol "CTR" 1]⟩

/-- Two validated rows over two sources and two dates. -/
def twoRowDf : List Row :=
  [⟨20240105, "A", 10, 100, 100, 90, 2, 1⟩,
   ⟨20240106, "B", 20, 200, 100, 85, 3, 1⟩]

/-- One source whose exact fill-rate mean is 79.996 (< 80) but rounds to 80.00. -/
def roundingDf : List Row :=
  [⟨20240101, "A", 1, 1000, 1, 79996/1000, 2, 1⟩]

/-! ## Helper lemmas -/

lemma foldl_min_le (x : ℤ) (xs : List ℤ) : ∀ y ∈ x :: xs, xs.foldl min x ≤ y := by
  induction xs generalizing x with
  | nil => intro y hy; simp_all
  | cons a as ih =>
      intro y hy
      rcases List.mem_cons.1 hy with rfl | hy'
      · exact le_trans (ih (min y a) (min y a) (List.mem_cons_self _ _)) (min_le_left _ _)
      · rcases List.mem_cons.1 hy' with rfl | hy''
        · exact le_trans (ih (min x y) (min x y) (List.mem_cons_self _ _)) (min_le_right _ _)
        · exact ih (min x a) y (List.mem_cons_of_mem _ hy'')

lemma le_foldl_max (x : ℤ) (xs : List ℤ) : ∀ y ∈ x :: xs, y ≤ xs.foldl max x := by
  induction xs generalizing x with
  | nil => intro y hy; simp_all
  | cons a as ih =>
      intro y hy
      rcases List.mem_cons.1 hy with rfl | hy'
      · exact le_trans (le_max_left _ _) (ih (max y a) (max y a) (List.mem_cons_self _ _))
      · rcases List.mem_cons.1 hy' with rfl | hy''
        · exact le_trans (le_max_right _ _) (ih (max x y) (max x y) (List.mem_cons_self _ _))
        · exact ih (max x a) y (List.mem_cons_of_mem _ hy'')

lemma minFecha_le (df : List Row) (r : Row) (hr : r ∈ df) : minFecha df ≤ r.fecha := by
  cases df with
  | nil => cases hr
  | cons r0 rs =>
      rcases List.mem_cons.1 hr with rfl | hr'
      · exact foldl_min_le _ _ _ (List.mem_cons_self _ _)
      · exact foldl_min_le r0.fecha (rs.map Row.fecha) r.fecha
          (List.mem_cons_of_mem _ (List.mem_map_of_mem Row.fecha hr'))

lemma le_maxFecha (df : List Row) (r : Row) (hr : r ∈ df) : r.fecha ≤ maxFecha df := by
  cases df with
  | nil => cases hr
  | cons r0 rs =>
      rcases List.mem_cons.1 hr with rfl | hr'
      · exact le_foldl_max _ _ _ (List.mem_cons_self _ _)
      · exact le_foldl_max r0.fecha (rs.map Row.fecha) r.fecha
          (List.mem_cons_of_mem _ (List.mem_map_of_mem Row.fecha hr'))

lemma nodup_uniqueSources (df : List Row) : (uniqueSources df).Nodup :=
  ((List.perm_insertionSort _ _).nodup_iff).mpr (List.nodup_dedup _)

lemma mem_uniqueSources (df : List Row) (r : Row) (hr : r ∈ df) :
    r.fuente ∈ uniqueSources df :=
  ((List.perm_insertionSort _ _).mem_iff).mpr
    (List.mem_dedup.mpr (List.mem_map_of_mem Row.fuente hr))

lemma sumBy_filter_not (f : Row → ℚ) (p : Row → Bool) (df : List Row) :
    sumBy f (df.filter p) + sumBy f (df.filter (fun r => !(p r))) = sumBy f df := by
  induction df with
  | nil => simp [sumBy]
  | cons r rest ih =>
      simp only [sumBy] at ih
      cases hp : p r <;> simp [sumBy, List.filter_cons, hp] <;> linarith

/-- Summing a quantity group-by-group over a duplicate-free key list that
covers every row recovers the sum over the whole dataset. -/
lemma sum_groups (f : Row → ℚ) (keys : List String) (df : List Row)
    (hnd : keys.Nodup) (hmem : ∀ r ∈ df, r.fuente ∈ keys) :
    (keys.map (fun s => sumBy f (groupRows df s))).sum = sumBy f df := by
  induction keys generalizing df with
  | nil =>
      have : df = [] := List.eq_nil_iff_forall_not_mem.mpr fun r hr => by
        simpa using hmem r hr
      simp [this, sumBy]
  | cons k ks ih =>
      have hknotin : k ∉ ks := (List.nodup_cons.1 hnd).1
      have hndks : ks.Nodup := (List.nodup_cons.1 hnd).2
      set df' := df.filter (fun r => !(r.fuente == k)) with hdf'
      have hgroups : ∀ s ∈ ks, groupRows df s = groupRows df' s := by
        intro s hs
        have hsk : s ≠ k := fun h => hknotin (h ▸ hs)
        rw [hdf']
        unfold groupRows
        rw [List.filter_filter]
        refine (List.filter_congr fun r _ => ?_).symm
        cases hfs : r.fuente == s with
        | true =>
            have hrk : (r.fuente == k) = false := by
              rw [eq_of_beq hfs]; simp [hsk]
            simp [hfs, hrk]
        | false => simp
      have hmem' : ∀ r ∈ df', r.fuente ∈ ks := by
        intro r hr
        have h1 := (List.mem_filter.1 hr).1
        have h2 := (List.mem_filter.1 hr).2
        have hne : r.fuente ≠ k := by simpa using h2
        rcases List.mem_cons.1 (hmem r h1) with h | h
        · exact absurd h hne
        · exact h
      have hmaps : ks.map (fun s => sumBy f (groupRows df s)) =
          ks.map (fun s => sumBy f (groupRows df' s)) :=
        List.map_congr_left fun s hs => by rw [hgroups s hs]
      calc (List.map (fun s => sumBy f (groupRows df s)) (k :: ks)).sum
          = sumBy f (groupRows df k) +
              (ks.map (fun s => sumBy f (groupRows df' s))).sum := by
            rw [List.map_cons, List.sum_cons, hmaps]
        _ = sumBy f (groupRows df k) + sumBy f df' := by rw [ih df' hndks hmem']
        _ = sumBy f df := by
            have := sumBy_filter_not f (fun r => r.fuente == k) df
            simpa [groupRows, hdf'] using this

/-- Rationals on the hundredths grid are fixed points of `round2`. -/
lemma round2_twodec (n : ℤ) : round2 ((n : ℚ) / 100) = (n : ℚ) / 100 := by
  unfold round2
  have h : ((n : ℚ) / 100) * 100 = (n : ℚ) := by field_simp
  rw [h, round_intCast]

/-- A sum of hundredth-grid rationals is a hundredth-grid rational. -/
lemma sum_twodec (l : List ℚ) (h : ∀ q ∈ l, ∃ n : ℤ, q = (n : ℚ) / 100) :
    ∃ n : ℤ, l.sum = (n : ℚ) / 100 := by
  induction l with
  | nil => exact ⟨0, by simp⟩
  | cons q qs ih =>
      obtain ⟨n, hn⟩ := h q (List.mem_cons_self _ _)
      obtain ⟨m, hm⟩ := ih fun q' hq' => h q' (List.mem_cons_of_mem _ hq')
      refine ⟨n + m, ?_⟩
      push_cast
      rw [List.sum_cons, hn, hm, add_div]

lemma evalAlerts_cons (p : String × SourceAgg) (ps : List (String × SourceAgg)) :
    evalAlerts (p :: ps) = perSourceAlerts p ++ evalAlerts ps := rfl

lemma evalAlerts_append (xs ys : List (String × SourceAgg)) :
    evalAlerts (xs ++ ys) = evalAlerts xs ++ evalAlerts ys := by
  induction xs with
  | nil => rfl
  | cons p ps ih => simp [evalAlerts_cons, ih, List.append_assoc]

/-- Every alert produced by the loop is the danger or warning alert of one of
the iterated `(source, metrics)` pairs. -/
lemma mem_evalAlerts (ms : List (String × SourceAgg)) (a : Alert) (ha : a ∈ evalAlerts ms) :
    ∃ p ∈ ms, a = dangerAlert p.1 p.2.fill_rate_mean ∨ a = warnAlert p.1 p.2.ecpm_mean := by
  induction ms with
  | nil => cases ha
  | cons p ps ih =>
      rw [evalAlerts_cons] at ha
      rcases List.mem_append.1 ha with h | h
      · refine ⟨p, List.mem_cons_self _ _, ?_⟩
        unfold perSourceAlerts at h
        rcases List.mem_append.1 h with h1 | h1 <;> split at h1 <;> simp_all
      · obtain ⟨q, hq, hh⟩ := ih h
        exact ⟨q, List.mem_cons_of_mem _ hq, hh⟩

lemma dangerCount_append (xs ys : List Alert) (s : String) :
    dangerCount (xs ++ ys) s = dangerCount xs s + dangerCount ys s := by
  simp [dangerCount, List.filter_append]

lemma warnCount_append (xs ys : List Alert) (s : String) :
    warnCount (xs ++ ys) s = warnCount xs s + warnCount ys s := by
  simp [warnCount, List.filter_append]

/-- The pair with the matching key contributes exactly its two rule outcomes. -/
lemma counts_perSource_eq (m : SourceAgg) (s : String) :
    dangerCount (perSourceAlerts (s, m)) s = (if m.fill_rate_mean < 80 then 1 else 0) ∧
    warnCount (perSourceAlerts (s, m)) s = (if m.ecpm_mean < 1 then 1 else 0) := by
  by_cases h1 : m.fill_rate_mean < 80 <;> by_cases h2 : m.ecpm_mean < 1 <;>
    simp [perSourceAlerts, dangerCount, warnCount, dangerAlert, warnAlert, h1, h2]

/-- Pairs with other keys contribute no alert counted for `s`. -/
lemma counts_perSource_ne (p : String × SourceAgg) (s : String) (hne : p.1 ≠ s) :
    dangerCount (perSourceAlerts p) s = 0 ∧ warnCount (perSourceAlerts p) s = 0 := by
  by_cases h1 : p.2.fill_rate_mean < 80 <;> by_cases h2 : p.2.ecpm_mean < 1 <;>
    simp [perSourceAlerts, dangerCount, warnCount, dangerAlert, warnAlert, h1, h2, hne]

lemma counts_zero_of_no_key (ms : List (String × SourceAgg)) (s : String)
    (h : ∀ p ∈ ms, p.1 ≠ s) :
    dangerCount (evalAlerts ms) s = 0 ∧ warnCount (evalAlerts ms) s = 0 := by
  induction ms with
  | nil => simp [evalAlerts, dangerCount, warnCount]
  | cons p ps ih =>
      obtain ⟨ihd, ihw⟩ := ih fun q hq => h q (List.mem_cons_of_mem _ hq)
      obtain ⟨hd, hw⟩ := counts_perSource_ne p s (h p (List.mem_cons_self _ _))
      rw [evalAlerts_cons]
      exact ⟨by rw [dangerCount_append, hd, ihd], by rw [warnCount_append, hw, ihw]⟩

/-- Alert counts when `s` occurs exactly once in the iterated mapping, with
metrics `m`: the decision is the strict threshold comparison on `m`. -/
lemma counts_single_key (ms : List (String × SourceAgg)) (s : String) (m : SourceAgg)
    (h : ms.filter (fun p => p.1 == s) = [(s, m)]) :
    dangerCount (evalAlerts ms) s = (if m.fill_rate_mean < 80 then 1 else 0) ∧
    warnCount (evalAlerts ms) s = (if m.ecpm_mean < 1 then 1 else 0) := by
  induction ms with
  | nil => simp at h
  | cons p ps ih =>
      by_cases hkey : p.1 = s
      · have h' : p :: ps.filter (fun q => q.1 == s) = [(s, m)] := by
          rw [← h, List.filter_cons]
          simp [hkey]
        simp only [List.cons.injEq] at h'
        obtain ⟨rfl, htail⟩ := h'
        have hnone : ∀ q ∈ ps, q.1 ≠ s := by
          intro q hq hqs
          have hmem : q ∈ ps.filter (fun q => q.1 == s) :=
            List.mem_filter.2 ⟨hq, by simp [hqs]⟩
          rw [htail] at hmem
          cases hmem
        obtain ⟨zd, zw⟩ := counts_zero_of_no_key ps s hnone
        obtain ⟨ed, ew⟩ := counts_perSource_eq m s
        rw [evalAlerts_cons]
        exact ⟨by rw [dangerCount_append, zd, ed, Nat.add_zero],
               by rw [warnCount_append, zw, ew, Nat.add_zero]⟩
      · have h' : ps.filter (fun q => q.1 == s) = [(s, m)] := by
          rw [← h, List.filter_cons]
          simp [hkey]
        obtain ⟨ihd, ihw⟩ := ih h'
        obtain ⟨hd, hw⟩ := counts_perSource_ne p s hkey
        rw [evalAlerts_cons]
        exact ⟨by rw [dangerCount_append, hd, ihd, Nat.zero_add],
               by rw [warnCount_append, hw, ihw, Nat.zero_add]⟩

/-- In a keyed map over duplicate-free keys, restricting to one key leaves
exactly its entry. -/
lemma filter_map_key (keys : List String) (g : String → SourceAgg) (s : String)
    (hnd : keys.Nodup) (hs : s ∈ keys) :
    (keys.map (fun k => (k, g k))).filter (fun p => p.1 == s) = [(s, g s)] := by
  induction keys with
  | nil => cases hs
  | cons k ks ih =>
      have hknotin : k ∉ ks := (List.nodup_cons.1 hnd).1
      have hndks : ks.Nodup := (List.nodup_cons.1 hnd).2
      by_cases hk : k = s
      · subst hk
        have hfil : (ks.map (fun k' => (k', g k'))).filter (fun p => p.1 == k) = [] := by
          refine List.filter_eq_nil_iff.mpr fun p hp => ?_
          obtain ⟨k', hk', rfl⟩ := List.mem_map.1 hp
          simp only [Bool.not_eq_true]
          simp only [beq_eq_false_iff_ne, ne_eq]
          exact fun he => hknotin (he ▸ hk')
        simp [List.filter_cons, hfil]
      · have hs' : s ∈ ks := by
          rcases List.mem_cons.1 hs with h | h
          · exact absurd h.symm hk
          · exact h
        simp only [List.map_cons, List.filter_cons]
        have : (k == s) = false := by simp [hk]
        simp [this, ih hndks hs']

lemma find?_append_of_none (p : String → Bool) (l₁ l₂ : List String)
    (h : ∀ a ∈ l₁, p a = false) : (l₁ ++ l₂).find? p = l₂.find? p := by
  induction l₁ with
  | nil => rfl
  | cons a l ih =>
      simp only [List.cons_append, List.find?_cons, h a (List.mem_cons_self _ _)]
      exact ih fun a' ha' => h a' (List.mem_cons_of_mem _ ha')

/-- Replacing the column named `n` leaves lookups of other names unchanged. -/
lemma getCol_setCol_ne (df : RawTable) (n c : String) (newc : Column)
    (hname : newc.name = n) (hc : c ≠ n) :
    getCol (setCol df n newc) c = getCol df c := by
  unfold getCol setCol
  obtain ⟨l⟩ := df
  induction l with
  | nil => rfl
  | cons col rest ih =>
      simp only [List.map_cons]
      cases hcn : col.name == n with
      | true =>
          rw [if_pos rfl]
          have h1 : (newc.name == c) = false := by rw [hname]; simp [Ne.symm hc]
          have h2 : (col.name == c) = false := by rw [eq_of_beq hcn]; simp [Ne.symm hc]
          simp only [List.find?, h1, h2]
          exact ih
      | false =>
          rw [if_neg (show ¬(false = true) by simp)]
          cases hcc : col.name == c with
          | true => simp only [List.find?, hcc]
          | false =>
              simp only [List.find?, hcc]
              exact ih

lemma isNumericCol_setCol_ne (df : RawTable) (n c : String) (newc : Column)
    (hname : newc.name = n) (hc : c ≠ n) :
    isNumericCol (setCol df n newc) c = isNumericCol df c := by
  unfold isNumericCol
  rw [getCol_setCol_ne df n c newc hname hc]

/-! ## Claim theorems -/

/-- C4: the two-bound filter keeps exactly the rows whose date lies in the
inclusive range and whose source is selected (same multiplicity as the input),
as a subsequence of the input (order preserved); an empty source selection
yields the empty dataset; and the full date range together with the full
source set returns the input dataset itself. -/
theorem applyFilters_spec (df : List Row) (d1 d2 : ℤ) (S : List String) (r : Row) :
    ((applyFilters df [d1, d2] S).count r =
      if d1 ≤ r.fecha ∧ r.fecha ≤ d2 ∧ r.fuente ∈ S then df.count r else 0) ∧
    (applyFilters df [d1, d2] S).Sublist df ∧
    applyFilters df [d1, d2] ([] : List String) = [] ∧
    applyFilters df [minFecha df, maxFecha df] (uniqueSources df) = df := by
  refine ⟨?_, List.filter_sublist df, ?_, ?_⟩
  · by_cases hp : d1 ≤ r.fecha ∧ r.fecha ≤ d2 ∧ r.fuente ∈ S
    · rw [if_pos hp]
      exact List.count_filter (by simpa using hp)
    · rw [if_neg hp]
      refine List.count_eq_zero.mpr fun hmem => ?_
      have hpr := (List.mem_filter.1 hmem).2
      exact hp (by simpa using hpr)
  · exact List.filter_eq_nil_iff.mpr fun r' _ => by simp
  · refine List.filter_eq_self.mpr fun r' hr' => ?_
    simp only [decide_eq_true_eq]
    exact ⟨minFecha_le df r' hr', le_maxFecha df r' hr', mem_uniqueSources df r' hr'⟩

/-- C8: the global `page_rpm_overall` equals
`total_revenue / total_impressions * 1000` over the whole filtered dataset
whenever `total_impressions` is positive, and short-circuits to 0 (without
evaluating the quotient) when `total_impressions = 0`. -/
theorem avg_page_rpm_spec (df : List Row) :
    (total_impressions df = 0 → avg_page_rpm df = 0) ∧
    (0 < total_impressions df →
      avg_page_rpm df = total_revenue df / total_impressions df * 1000) := by
  constructor
  · intro h
    simp [avg_page_rpm, h]
  · intro h
    rw [avg_page_rpm, if_pos h]

/-- Witness for C8 on a concrete two-row dataset with positive impressions. -/
theorem avg_page_rpm_spec_witness :
    avg_page_rpm twoRowDf = total_revenue twoRowDf / total_impressions twoRowDf * 1000 :=
  (avg_page_rpm_spec twoRowDf).2 (by norm_num [total_impressions, sumBy, twoRowDf])

/-- C3: summing the per-source `revenue_sum` aggregates over all groups of the
per-source partition recovers the total revenue of the whole filtered dataset;
this holds exactly for the full-precision group sums, and it transfers to the
`.round(2)`-presented `detailed_metrics` figures whenever the input revenues
lie on the hundredths (cent) grid, because rounding is then the identity. -/
theorem revenue_sum_conservation (df : List Row) :
    ((uniqueSources df).map (fun s => sumBy Row.revenue (groupRows df s))).sum =
      total_revenue df ∧
    ((∀ r ∈ df, ∃ n : ℤ, r.revenue = (n : ℚ) / 100) →
      ((detailed_metrics df).map (fun p => p.2.revenue_sum)).sum = total_revenue df) := by
  have hexact := sum_groups Row.revenue (uniqueSources df) df (nodup_uniqueSources df)
    (fun r hr => mem_uniqueSources df r hr)
  refine ⟨hexact, fun h2 => ?_⟩
  have hmaps : (detailed_metrics df).map (fun p => p.2.revenue_sum) =
      (uniqueSources df).map (fun s => round2 (sumBy Row.revenue (groupRows df s))) := by
    simp only [detailed_metrics, List.map_map]
    rfl
  have hcong : (uniqueSources df).map (fun s => round2 (sumBy Row.revenue (groupRows df s))) =
      (uniqueSources df).map (fun s => sumBy Row.revenue (groupRows df s)) := by
    refine List.map_congr_left fun s _ => ?_
    have hcells : ∀ q ∈ (groupRows df s).map Row.revenue, ∃ n : ℤ, q = (n : ℚ) / 100 := by
      intro q hq
      obtain ⟨r, hr, rfl⟩ := List.mem_map.1 hq
      exact h2 r (List.mem_filter.1 hr).1
    obtain ⟨n, hn⟩ := sum_twodec _ hcells
    show round2 (sumBy Row.revenue (groupRows df s)) = sumBy Row.revenue (groupRows df s)
    unfold sumBy
    rw [hn, round2_twodec]
  rw [hmaps, hcong, hexact]
  rfl

/-- Witness for C3's rounded conjunct on a concrete two-source dataset with
cent-precision revenues. -/
theorem revenue_sum_conservation_witness :
    ((detailed_metrics twoRowDf).map (fun p => p.2.revenue_sum)).sum =
      total_revenue twoRowDf := by
  refine (revenue_sum_conservation twoRowDf).2 ?_
  intro r hr
  rcases List.mem_cons.1 hr with rfl | hr'
  · exact ⟨1000, by norm_num⟩
  · rcases List.mem_cons.1 hr' with rfl | hr''
    · exact ⟨2000, by norm_num⟩
    · cases hr''

/-- C1: over any per-source aggregated metrics mapping in which source `s`
occurs exactly once with metrics `m`, the evaluator emits exactly one danger
alert for `s` iff `m.fill_rate_mean < 80` (none otherwise) and exactly one
warning alert for `s` iff `m.ecpm_mean < 1` (none otherwise); every emitted
alert's message names its source; and on the boundary, `fill_rate_mean = 79.9`
gives exactly one danger alert while `80.0` gives none, and `ecpm_mean = 0.99`
gives exactly one warning while `1.0` gives none. -/
theorem evalAlerts_threshold_iff (ms : List (String × SourceAgg)) (s : String)
    (m : SourceAgg) (h : ms.filter (fun p => p.1 == s) = [(s, m)]) :
    (dangerCount (evalAlerts ms) s = if m.fill_rate_mean < 80 then 1 else 0) ∧
    (warnCount (evalAlerts ms) s = if m.ecpm_mean < 1 then 1 else 0) ∧
    (∀ a ∈ evalAlerts ms, ∃ pre post, a.message = pre ++ a.source ++ post) ∧
    (∀ rev e, dangerCount (evalAlerts [(s, ⟨(799 : ℚ)/10, rev, e⟩)]) s = 1) ∧
    (∀ rev e, dangerCount (evalAlerts [(s, ⟨80, rev, e⟩)]) s = 0) ∧
    (∀ rev fill, warnCount (evalAlerts [(s, ⟨fill, rev, (99 : ℚ)/100⟩)]) s = 1) ∧
    (∀ rev fill, warnCount (evalAlerts [(s, ⟨fill, rev, 1⟩)]) s = 0) := by
  obtain ⟨hd, hw⟩ := counts_single_key ms s m h
  refine ⟨hd, hw, ?_, ?_, ?_, ?_, ?_⟩
  · intro a ha
    obtain ⟨p, _, hcase⟩ := mem_evalAlerts ms a ha
    rcases hcase with rfl | rfl
    · refine ⟨"⚠️ ", ": Fill Rate bajo (" ++ fmtFix 1 p.2.fill_rate_mean ++ "%)", ?_⟩
      simp [dangerAlert, dangerMsg, String.append_assoc]
    · refine ⟨"⚡ ", ": eCPM bajo ($" ++ fmtFix 2 p.2.ecpm_mean ++ ")", ?_⟩
      simp [warnAlert, warnMsg, String.append_assoc]
  · intro rev e
    have hone := (counts_single_key [(s, ⟨(799 : ℚ)/10, rev, e⟩)] s ⟨(799 : ℚ)/10, rev, e⟩ (by simp)).1
    rw [hone, if_pos (by norm_num)]
  · intro rev e
    have hone := (counts_single_key [(s, ⟨(80 : ℚ), rev, e⟩)] s ⟨(80 : ℚ), rev, e⟩ (by simp)).1
    rw [hone, if_neg (by norm_num)]
  · intro rev fill
    have hone := (counts_single_key [(s, ⟨fill, rev, (99 : ℚ)/100⟩)] s ⟨fill, rev, (99 : ℚ)/100⟩ (by simp)).2
    rw [hone, if_pos (by norm_num)]
  · intro rev fill
    have hone := (counts_single_key [(s, ⟨fill, rev, (1 : ℚ)⟩)] s ⟨fill, rev, (1 : ℚ)⟩ (by simp)).2
    rw [hone, if_neg (by norm_num)]

/-- Witness for C1 on a concrete one-entry mapping at the danger boundary. -/
theorem evalAlerts_threshold_iff_witness :
    dangerCount (evalAlerts [("A", (⟨(799 : ℚ)/10, 0, 2⟩ : SourceAgg))]) "A" = 1 ∧
    warnCount (evalAlerts [("A", (⟨(799 : ℚ)/10, 0, 2⟩ : SourceAgg))]) "A" = 0 := by
  have h := evalAlerts_threshold_iff [("A", (⟨(799 : ℚ)/10, 0, 2⟩ : SourceAgg))] "A"
    (⟨(799 : ℚ)/10, 0, 2⟩ : SourceAgg) (by simp)
  constructor
  · rw [h.1, if_pos (by norm_num)]
  · rw [h.2.1, if_neg (by norm_num)]

/-- C9: the evaluator is a deterministic function of the aggregated mapping;
it iterates the mapping entries in order (concatenation of inputs maps to
concatenation of alert outputs), each source contributes its danger alert then
its warning alert interleaved at its own position (never grouped by severity),
a single source can emit both in one cycle, nothing is suppressed or
deduplicated, and `show_alerts` evaluates exactly the per-source aggregation
mapping in its order. -/
theorem evalAlerts_order_and_independence (df : List Row)
    (ms1 ms2 : List (String × SourceAgg)) (s : String) (m : SourceAgg) :
    evalAlerts (ms1 ++ ms2) = evalAlerts ms1 ++ evalAlerts ms2 ∧
    evalAlerts [(s, m)] =
      (if m.fill_rate_mean < 80 then [dangerAlert s m.fill_rate_mean] else []) ++
        (if m.ecpm_mean < 1 then [warnAlert s m.ecpm_mean] else []) ∧
    show_alerts df = evalAlerts (sourceMetrics df) := by
  refine ⟨evalAlerts_append ms1 ms2, ?_, rfl⟩
  simp [evalAlerts_cons, evalAlerts, perSourceAlerts]

/-- C10: the alert decisions of the full `show_alerts` pipeline are taken on
the per-source means after `.round(2)`, not on the full-precision means: for a
source of the dataset, a danger (resp. warning) alert is emitted exactly when
the rounded fill-rate mean is below 80 (resp. rounded eCPM mean below 1). -/
theorem show_alerts_uses_rounded_means (df : List Row) (s : String)
    (hs : s ∈ uniqueSources df) :
    dangerCount (show_alerts df) s =
      (if round2 (meanBy Row.fill_rate (groupRows df s)) < 80 then 1 else 0) ∧
    warnCount (show_alerts df) s =
      (if round2 (meanBy Row.ecpm (groupRows df s)) < 1 then 1 else 0) := by
  have hfil := filter_map_key (uniqueSources df)
    (fun s => (⟨round2 (meanBy Row.fill_rate (groupRows df s)),
               round2 (sumBy Row.revenue (groupRows df s)),
               round2 (meanBy Row.ecpm (groupRows df s))⟩ : SourceAgg)) s
    (nodup_uniqueSources df) hs
  exact counts_single_key (sourceMetrics df) s _ hfil

/-- Witness for C10: a source with exact fill-rate mean 79.996 (strictly below
80) receives no danger alert, because 79.996 rounds to 80.00. -/
theorem show_alerts_uses_rounded_means_witness :
    meanBy Row.fill_rate (groupRows roundingDf "A") < 80 ∧
    dangerCount (show_alerts roundingDf) "A" = 0 := by
  have hg : groupRows roundingDf "A" = roundingDf := rfl
  have hmean : meanBy Row.fill_rate (groupRows roundingDf "A") = (79996 : ℚ) / 1000 := by
    rw [hg]
    show ((List.map Row.fill_rate roundingDf).sum) / ((roundingDf.length : ℚ)) = _
    norm_num [roundingDf]
  have h := show_alerts_uses_rounded_means roundingDf "A" (by decide)
  have hr2 : round2 ((79996 : ℚ) / 1000) = 80 := by
    unfold round2
    rw [round_eq]
    norm_num
  constructor
  · rw [hmean]; norm_num
  · rw [h.1, hmean, hr2, if_neg (by norm_num)]

/-- C5: on any table missing at least one required column, `validate_data`
fails with a message listing every missing column (each column is in the
reported list iff it is required and absent), comma-joined, in required-list
order (the reported list is a sublist of
`Fecha, Fuente, Revenue, Impresiones, Page_RPM, Fill_Rate, eCPM, CTR`). -/
theorem validate_missing_columns_message (df : RawTable) (c : String)
    (hc : c ∈ required_columns) (hmiss : hasCol df c = false) :
    ((validate_data df).1 =
      (false, "Faltan las siguientes columnas: " ++
        String.intercalate ", " (required_columns.filter (fun c' => !(hasCol df c'))))) ∧
    (∀ c', c' ∈ required_columns.filter (fun c' => !(hasCol df c')) ↔
      (c' ∈ required_columns ∧ hasCol df c' = false)) ∧
    (required_columns.filter (fun c' => !(hasCol df c'))).Sublist required_columns := by
  have hcmem : c ∈ required_columns.filter (fun c' => !(hasCol df c')) :=
    List.mem_filter.2 ⟨hc, by simp [hmiss]⟩
  have hne : required_columns.filter (fun c' => !(hasCol df c')) ≠ [] :=
    List.ne_nil_of_mem hcmem
  refine ⟨?_, ?_, List.filter_sublist _⟩
  · simp only [validate_data]
    rw [if_pos hne]
  · intro c'
    rw [List.mem_filter]
    simp

/-- Witness for C5: a table missing `Fecha` and `eCPM` is rejected with a
message listing both, in required-column order. -/
theorem validate_missing_columns_message_witness :
    (validate_data missingRaw).1 =
      (false, "Faltan las siguientes columnas: Fecha, eCPM") := by
  have h := (validate_missing_columns_message missingRaw "Fecha" (by decide) (by decide)).1
  rw [h]
  rfl

/-- C6: on any table with all eight columns, parseable dates and at least one
non-numeric-typed numeric column, `validate_data` fails naming exactly the
first offending column in the scan order
`Revenue, Impresiones, Page_RPM, Fill_Rate, eCPM, CTR`: whenever the columns
strictly before `c` in that order are numeric-typed and `c` is not, the
message names `c`, regardless of any later offending columns. -/
theorem validate_first_nonnumeric_column (df : RawTable) (pre post : List String)
    (c : String)
    (hall : ∀ c' ∈ required_columns, hasCol df c' = true)
    (hdates : (parsedDates df).isSome = true)
    (hsplit : numeric_columns = pre ++ c :: post)
    (hpre : ∀ c' ∈ pre, isNumericCol df c' = true)
    (hbad : isNumericCol df c = false) :
    (validate_data df).1 = (false, "La columna " ++ c ++ " debe ser numérica") := by
  obtain ⟨ds, hds⟩ := Option.isSome_iff_exists.1 hdates
  have hmiss : required_columns.filter (fun c' => !(hasCol df c')) = [] :=
    List.filter_eq_nil_iff.mpr fun c' hc' => by simp [hall c' hc']
  have hfecha : ∀ c' ∈ numeric_columns, c' ≠ "Fecha" := by decide
  have hnum2 : ∀ c' ∈ numeric_columns,
      isNumericCol (setCol df "Fecha" ⟨"Fecha", Dtype.datetime, ds.map Cell.date⟩) c' =
        isNumericCol df c' := fun c' hc' =>
    isNumericCol_setCol_ne df "Fecha" c' _ rfl (hfecha c' hc')
  have hcmem : c ∈ numeric_columns := by
    rw [hsplit]; exact List.mem_append_right _ (List.mem_cons_self _ _)
  have hfind : numeric_columns.find?
      (fun c' => !(isNumericCol
        (setCol df "Fecha" ⟨"Fecha", Dtype.datetime, ds.map Cell.date⟩) c')) = some c := by
    rw [hsplit]
    have hpre' : ∀ a ∈ pre,
        (!(isNumericCol (setCol df "Fecha" ⟨"Fecha", Dtype.datetime, ds.map Cell.date⟩) a))
          = false := by
      intro a ha
      have hamem : a ∈ numeric_columns := by
        rw [hsplit]; exact List.mem_append_left _ ha
      rw [hnum2 a hamem, hpre a ha]
      rfl
    rw [find?_append_of_none _ pre (c :: post) hpre']
    exact List.find?_cons_of_pos post (by rw [hnum2 c hcmem, hbad]; rfl)
  simp [validate_data, hmiss, hds, hfind]

/-- Witness for C6: a table where both `Impresiones` and `eCPM` are
non-numeric is reported on `Impresiones` alone (the first in scan order). -/
theorem validate_first_nonnumeric_column_witness :
    (validate_data mixedRaw).1 = (false, "La columna Impresiones debe ser numérica") := by
  have h := validate_first_nonnumeric_column mixedRaw ["Revenue"]
    ["Page_RPM", "Fill_Rate", "eCPM", "CTR"] "Impresiones"
    (by decide) (by decide) (by decide) (by decide) (by decide)
  rw [h]
  rfl

/-- C7 counterexample: the claim says a record with zero (or negative)
impressions is rejected by validation, but `validate_data` accepts a table
whose `Impresiones` column is numeric-typed with value 0. -/
theorem validate_accepts_zero_impressions :
    (validate_data zeroImpRaw).1 = (true, "Datos válidos") ∧
    getCol zeroImpRaw "Impresiones" = some (numCol "Impresiones" 0) := by
  constructor <;> rfl

/-- C7 amended: validation performs no range check on `impressions` — a table
with all eight columns, parseable dates and numeric-typed numeric columns is
accepted even when the `Impresiones` column contains a value `q ≤ 0`. -/
theorem validate_no_impressions_range_check (df : RawTable) (col : Column) (q : ℚ)
    (hall : ∀ c' ∈ required_columns, hasCol df c' = true)
    (hdates : (parsedDates df).isSome = true)
    (hnum : ∀ c' ∈ numeric_columns, isNumericCol df c' = true)
    (_hcol : getCol df "Impresiones" = some col)
    (_hq : Cell.num q ∈ col.cells) (_hq0 : q ≤ 0) :
    (validate_data df).1 = (true, "Datos válidos") := by
  obtain ⟨ds, hds⟩ := Option.isSome_iff_exists.1 hdates
  have hmiss : required_columns.filter (fun c' => !(hasCol df c')) = [] :=
    List.filter_eq_nil_iff.mpr fun c' hc' => by simp [hall c' hc']
  have hfecha : ∀ c' ∈ numeric_columns, c' ≠ "Fecha" := by decide
  have hfind : numeric_columns.find?
      (fun c' => !(isNumericCol
        (setCol df "Fecha" ⟨"Fecha", Dtype.datetime, ds.map Cell.date⟩) c')) = none := by
    refine List.find?_eq_none.mpr fun c' hc' => ?_
    rw [isNumericCol_setCol_ne df "Fecha" c' _ rfl (hfecha c' hc'), hnum c' hc']
    simp
  simp [validate_data, hmiss, hds, hfind]

/-- Witness for C7's amended statement at the concrete zero-impressions
table. -/
theorem validate_no_impressions_range_check_witness :
    (validate_data zeroImpRaw).1 = (true, "Datos válidos") :=
  validate_no_impressions_range_check zeroImpRaw (numCol "Impresiones" 0) 0
    (by decide) (by decide) (by decide) (by rfl) (by decide) (by decide)

/-- C2 counterexample: `validate_data` is not side-effect-free — on a valid
upload it replaces the string-typed `Fecha` column with its parsed
datetime-typed version in the caller's table, so the table after the call
differs from the table before it. -/
theorem validate_data_mutates_input :
    (validate_data goodRaw).1 = (true, "Datos válidos") ∧
    getCol goodRaw "Fecha" = some ⟨"Fecha", Dtype.object, [Cell.str "2024-01-05"]⟩ ∧
    getCol ((validate_data goodRaw).2) "Fecha" =
      some ⟨"Fecha", Dtype.datetime, [Cell.date 20240105]⟩ ∧
    (validate_data goodRaw).2 ≠ goodRaw := by
  refine ⟨rfl, rfl, rfl, ?_⟩
  decide

/-- C2 amended: the only mutation `validate_data` performs is on the `Fecha`
column (replaced by its parsed version when the schema and date checks pass);
every other column reads back unchanged from the post-call table. -/
theorem validate_data_mutates_only_fecha (df : RawTable) (c : String)
    (hc : c ≠ "Fecha") :
    getCol ((validate_data df).2) c = getCol df c := by
  simp only [validate_data]
  split
  · rfl
  · split
    · rfl
    · split <;> exact getCol_setCol_ne df "Fecha" c _ rfl hc

/-- Witness for C2's amended statement: the `Revenue` column of a valid upload
is unchanged by validation. -/
theorem validate_data_mutates_only_fecha_witness :
    getCol ((validate_data goodRaw).2) "Revenue" = getCol goodRaw "Revenue" :=
  validate_data_mutates_only_fecha goodRaw "Revenue" (by decide)

end Dashboard
